import Mathlib

/-!
Shallow embedding of the bvp API v1 time-series grouping, addressing and
horizon-aware ingestion/query pipeline, and proofs of the specified
properties against it.

Sources embedded:
- src/bvp/api/common/utils/api_utils.py
  (groups_to_dict, unique_ever_seen, save_to_database)
- src/bvp/api/v1/implementations.py
  (collect_connection_and_value_groups, create_connection_and_value_groups)
- src/migrations/versions/45d937300b0f_.py
  (the measurement table primary key (datetime, asset_id))

Conventions of the embedding:
- Python dynamic values appearing in groups_to_dict / unique_ever_seen are
  modelled by the inductive type Val (numbers, strings, nested lists).
- datetimes, timedeltas and power values are modelled by the rationals:
  the Python arithmetic involved (datetime + timedelta, timedelta
  subtraction and division by an int, float negation) is exact at the
  granularity the claims address.
- fallible Python code (AttributeError on a None dereference) returns
  Except PyError; the typed API responses of responses.py are the
  inductive ApiResponse.
- the database session is modelled by explicit state passing: the
  committed lists of Power rows and of forecasting jobs are threaded
  through, a bulk save signals DbError.integrityError iff a primary-key
  conflict occurs, and rollback is the act of continuing from the
  unchanged committed state.
-/

/-- Model of a dynamically typed Python value, as handled by
unique_ever_seen and groups_to_dict in api_utils.py (connection ids,
asset-name strings, and possibly nested lists thereof). -/
inductive Val where
  | nat : Nat → Val
  | str : String → Val
  | list : List Val → Val

mutual

/-- Boolean equality on Val, mirroring Python structural equality of
numbers, strings and (nested) lists. -/
def Val.beq : Val → Val → Bool
  | .nat a, .nat b => a == b
  | .str a, .str b => a == b
  | .list a, .list b => Val.beqList a b
  | _, _ => false

/-- Boolean equality on lists of Val. -/
def Val.beqList : List Val → List Val → Bool
  | [], [] => true
  | a :: as, b :: bs => Val.beq a b && Val.beqList as bs
  | _, _ => false

end

mutual

theorem Val.beq_iff_eq : ∀ (a b : Val), Val.beq a b = true ↔ a = b
  | .nat a, .nat b => by simp [Val.beq]
  | .nat _, .str _ => by simp [Val.beq]
  | .nat _, .list _ => by simp [Val.beq]
  | .str _, .nat _ => by simp [Val.beq]
  | .str a, .str b => by simp [Val.beq]
  | .str _, .list _ => by simp [Val.beq]
  | .list _, .nat _ => by simp [Val.beq]
  | .list _, .str _ => by simp [Val.beq]
  | .list a, .list b => by
    rw [Val.beq, Val.beqList_iff_eq a b]
    simp

theorem Val.beqList_iff_eq : ∀ (as bs : List Val), Val.beqList as bs = true ↔ as = bs
  | [], [] => by simp [Val.beqList]
  | [], _ :: _ => by simp [Val.beqList]
  | _ :: _, [] => by simp [Val.beqList]
  | a :: as, b :: bs => by
    rw [Val.beqList, Bool.and_eq_true, Val.beq_iff_eq a b, Val.beqList_iff_eq as bs]
    simp

end

instance : DecidableEq Val := fun a b =>
  decidable_of_iff (Val.beq a b = true) (Val.beq_iff_eq a b)

/-- One step of the loop body of unique_ever_seen (api_utils.py lines
156-167), acting on the accumulated pair (u, s) for the next
(iterable_element, selector_element) pair.  Mirrors the Python exactly:
if the iterable element was seen before, the stored selector entry is
wrapped into a list when it is not one already, and the new selector
element is appended to it WHOLE (this is where a stored singleton list
[1] grows into [1, [2]] rather than [1, 2]). -/
def uniqueEverSeenStep (acc : List Val × List Val) (pair : Val × Val) :
    List Val × List Val :=
  let u := acc.1
  let s := acc.2
  let ie := pair.1
  let se := pair.2
  if ie ∈ u then
    let idx := u.indexOf ie
    let us := s.getD idx (Val.list [])
    let us' := match us with
      | Val.list xs => Val.list (xs ++ [se])
      | x => Val.list ([x] ++ [se])
    (u, s.set idx us')
  else
    (u ++ [ie], s ++ [se])

/-- Embedding of unique_ever_seen (api_utils.py lines 152-168): return
unique iterable elements with corresponding selector elements, preserving
order; selector elements of duplicated iterable elements are accumulated
into a list at the first occurrence's position. -/
def unique_ever_seen (iterable selector : List Val) : List Val × List Val :=
  (iterable.zip selector).foldl uniqueEverSeenStep ([], [])

/-- A group entry of the response dictionary: either a singular
"connection" key or a plural "connections" key, plus "values". -/
inductive GEntry where
  | connection : Val → Val → GEntry
  | connections : Val → Val → GEntry
deriving DecidableEq

/-- Shape of the dictionary produced by groups_to_dict: a flat
{connection|connections, values} dictionary, or {"groups": [...]}. -/
inductive GroupsDict where
  | flat : GEntry → GroupsDict
  | grouped : List GEntry → GroupsDict
deriving DecidableEq

/-- Python len() on a Val: length of a list or of a string.  A number has
no len() (Python raises TypeError); the claims only exercise sequence
inputs, and we return 0 there. -/
def pyLen : Val → Nat
  | Val.list xs => xs.length
  | Val.str s => s.length
  | Val.nat _ => 0

/-- Python v[0] on a Val sequence (first element of a list, first
character of a string). -/
def pyFirst : Val → Val
  | Val.list xs => xs.getD 0 (Val.list [])
  | Val.str s => Val.str (String.mk (s.toList.take 1))
  | v => v

/-- Render one (connection_group, value_group) pair as a response entry,
as done in both branches of groups_to_dict: a group of length one is
rendered under the singular "connection" key (its sole element), any
other under the plural "connections" key (the group itself). -/
def entryOf (connection_group value_group : Val) : GEntry :=
  if pyLen connection_group = 1 then
    GEntry.connection (pyFirst connection_group) value_group
  else
    GEntry.connections connection_group value_group

/-- Embedding of groups_to_dict (api_utils.py lines 85-149): deduplicate
value groups with unique_ever_seen, then simplify to a flat dictionary if
exactly one group remains, else emit one entry per remaining group under
"groups". -/
def groups_to_dict (connection_groups value_groups : List Val) : GroupsDict :=
  let p := unique_ever_seen value_groups connection_groups
  let vgs := p.1
  let cgs := p.2
  if vgs.length = 1 ∧ cgs.length = 1 then
    GroupsDict.flat (entryOf (cgs.getD 0 (Val.list [])) (vgs.getD 0 (Val.list [])))
  else
    GroupsDict.grouped ((cgs.zip vgs).map (fun cv => entryOf cv.1 cv.2))

/-- Abbreviation for the value group [300, 300, 300] used by the
docstring examples of groups_to_dict and by claims C1, C7 and C8. -/
def vals300 : Val := Val.list [Val.nat 300, Val.nat 300, Val.nat 300]

/-- Abbreviation for the value group [400, 400, 400]. -/
def vals400 : Val := Val.list [Val.nat 400, Val.nat 400, Val.nat 400]

/-- Model of the Asset row (bvp.data.models.assets.Asset, repo code not
under src/): the fields read by the pipelines in implementations.py.
Modelled from the spec: Connection has id, name, isPureConsumer,
isPureProducer and entityAddress attributes. -/
structure Asset where
  id : Nat
  name : String
  is_pure_consumer : Bool
  is_pure_producer : Bool
  entity_address : String
deriving DecidableEq

/-- Model of the Power measurement row, with the fields set by
create_connection_and_value_groups (implementations.py lines 268-275).
The migration 45d937300b0f_.py declares the primary key
(datetime, asset_id). -/
structure Power where
  datetime : ℚ
  value : ℚ
  horizon : ℚ
  asset_id : Nat
  data_source_id : Nat
deriving DecidableEq

/-- Model of a forecasting-job descriptor.  The field stop models the
Python variable named end (a Lean keyword). -/
structure Job where
  timeseries_kind : String
  asset_id : Nat
  start : ℚ
  stop : ℚ
deriving DecidableEq

/-- Modelled from the spec: make_forecasting_jobs (bvp code not under
src/) emits forecasting-job descriptors, one per
(metricKind, assetId, start, end). -/
def make_forecasting_jobs (timeseries_kind : String) (asset_id : Nat)
    (start stop : ℚ) : List Job :=
  [Job.mk timeseries_kind asset_id start stop]

/-- The typed API responses of responses.py that the two pipelines can
return.  The string argument of the power-value responses is the
extra_info built from the asset's entity address. -/
inductive ApiResponse where
  | invalid_domain : ApiResponse
  | unrecognized_connection_group : ApiResponse
  | power_value_too_small : String → ApiResponse
  | power_value_too_big : String → ApiResponse
  | already_received_and_successfully_processed : ApiResponse
  | request_processed : ApiResponse
deriving DecidableEq

/-- An unhandled Python exception escaping the pipeline.  attributeError
models dereferencing None (e.g. asset.name when the asset query returned
no row). -/
inductive PyError where
  | attributeError : PyError
deriving DecidableEq

/-- A database error signalled by the storage layer.  integrityError
models sqlalchemy.exc.IntegrityError on a primary-key conflict. -/
inductive DbError where
  | integrityError : DbError
deriving DecidableEq

deriving instance DecidableEq for Except

/-- The per-request environment of the pipelines, aggregating the
collaborators that are repo code not under src/ or configuration.
Modelled from the spec: validate_entity_address parses an entity address
to an asset id (None on parse failure); user_asset_ids is the caller's
authorized connection-id set from get_assets(); assets are the stored
Asset rows queried by Asset.query; data_source_id is the writer identity
resolved once per ingestion call; bvp_mode is the BVP_MODE deployment
configuration ("play" permits replay). -/
structure Env where
  validate_entity_address : String → Option Nat
  user_asset_ids : List Nat
  assets : List Asset
  data_source_id : Nat
  bvp_mode : String

/-- Outcome of resolving one connection address inside the pipelines
(implementations.py lines 229-242): parse the address, check membership
in the caller's authorized set, then look the Asset row up in storage.
Returns none when any of the three steps fails. -/
def resolve_asset (env : Env) (connection : String) : Option Asset :=
  match env.validate_entity_address connection with
  | none => none
  | some asset_id =>
    if asset_id ∈ env.user_asset_ids then
      env.assets.find? (fun a => a.id == asset_id)
    else none

/-- The Power objects built for one connection and its value group
(implementations.py lines 258-276): one per value index j, at datetime
start + j*duration/N, with the sign-reversed value, the per-value horizon
(the baseline when rolling, otherwise reduced by the gap between the
window end and the sub-interval end), the asset id and the data source
id. -/
def build_power_measurements (data_source_id : Nat) (asset : Asset) (horizon : ℚ)
    (rolling : Bool) (start duration : ℚ) (value_group : List ℚ) : List Power :=
  value_group.enum.map (fun jv =>
    let N : ℚ := (value_group.length : ℚ)
    let dt : ℚ := start + (jv.1 : ℚ) * duration / N
    let h : ℚ := if rolling then horizon
      else horizon - ((start + duration) - (dt + duration / N))
    Power.mk dt (jv.2 * (-1)) h asset.id data_source_id)

/-- Value of the Python variable end after the per-value loop
(implementations.py lines 259-277): initialized to start, overwritten
with dt on every iteration, so it ends as the datetime of the last value
(and stays start for an empty value group). -/
def loop_end (start duration : ℚ) (value_group : List ℚ) : ℚ :=
  value_group.enum.foldl
    (fun _ jv => start + (jv.1 : ℚ) * duration / (value_group.length : ℚ)) start

/-- Processing of a single connection of a connection group inside
create_connection_and_value_groups (implementations.py lines 226-282):
address parsing (invalid_domain on failure), authorization
(unrecognized_connection_group when the asset id is not the caller's),
the Asset row lookup (whose missing row leaves asset = None, so the
following attribute access raises AttributeError), the consumer/producer
sign validation, and the construction of the Power objects and of the
forecasting jobs for a non-empty write interval.  Sum.inl is an early
return of the whole request; Sum.inr is this connection's contribution
to the batch. -/
def process_connection (env : Env) (horizon : ℚ) (rolling : Bool) (start duration : ℚ)
    (connection : String) (value_group : List ℚ) :
    Except PyError (Sum ApiResponse (List Power × List Job)) :=
  match env.validate_entity_address connection with
  | none => Except.ok (Sum.inl ApiResponse.invalid_domain)
  | some asset_id =>
    if asset_id ∈ env.user_asset_ids then
      match env.assets.find? (fun a => a.id == asset_id) with
      | none => Except.error PyError.attributeError
      | some asset =>
        if asset.is_pure_consumer && value_group.any (fun v => decide (v < 0)) then
          Except.ok (Sum.inl (ApiResponse.power_value_too_small asset.entity_address))
        else if asset.is_pure_producer && value_group.any (fun v => decide (v > 0)) then
          Except.ok (Sum.inl (ApiResponse.power_value_too_big asset.entity_address))
        else
          let ms := build_power_measurements env.data_source_id asset horizon rolling
            start duration value_group
          let e := loop_end start duration value_group
          let jobs := if start < e then make_forecasting_jobs "Power" asset_id start e
            else []
          Except.ok (Sum.inr (ms, jobs))
    else Except.ok (Sum.inl ApiResponse.unrecognized_connection_group)

/-- The inner loop of create_connection_and_value_groups over the
connections of one group, concatenating their contributions; an early
return or an exception from an earlier connection takes precedence. -/
def process_connections (env : Env) (horizon : ℚ) (rolling : Bool) (start duration : ℚ)
    (value_group : List ℚ) :
    List String → Except PyError (Sum ApiResponse (List Power × List Job))
  | [] => Except.ok (Sum.inr ([], []))
  | c :: rest =>
    match process_connection env horizon rolling start duration c value_group with
    | Except.error e => Except.error e
    | Except.ok (Sum.inl resp) => Except.ok (Sum.inl resp)
    | Except.ok (Sum.inr msjobs) =>
      match process_connections env horizon rolling start duration value_group rest with
      | Except.error e => Except.error e
      | Except.ok (Sum.inl resp) => Except.ok (Sum.inl resp)
      | Except.ok (Sum.inr msjobs2) =>
        Except.ok (Sum.inr (msjobs.1 ++ msjobs2.1, msjobs.2 ++ msjobs2.2))

/-- The outer loop of create_connection_and_value_groups over the zipped
(connection group, value group) pairs (implementations.py line 225). -/
def process_groups (env : Env) (horizon : ℚ) (rolling : Bool) (start duration : ℚ) :
    List (List String × List ℚ) → Except PyError (Sum ApiResponse (List Power × List Job))
  | [] => Except.ok (Sum.inr ([], []))
  | p :: rest =>
    match process_connections env horizon rolling start duration p.2 p.1 with
    | Except.error e => Except.error e
    | Except.ok (Sum.inl resp) => Except.ok (Sum.inl resp)
    | Except.ok (Sum.inr msjobs) =>
      match process_groups env horizon rolling start duration rest with
      | Except.error e => Except.error e
      | Except.ok (Sum.inl resp) => Except.ok (Sum.inl resp)
      | Except.ok (Sum.inr msjobs2) =>
        Except.ok (Sum.inr (msjobs.1 ++ msjobs2.1, msjobs.2 ++ msjobs2.2))

/-- The conflict identity of a Power row: the primary key
(datetime, asset_id) declared in migration 45d937300b0f_.py. -/
def power_key (p : Power) : ℚ × Nat := (p.datetime, p.asset_id)

/-- Whether inserting the batch row by row into the committed rows hits a
primary-key conflict (against the committed rows or between batch rows),
as db.session.bulk_save_objects would. -/
def batch_conflicts (db : List Power) : List Power → Bool
  | [] => false
  | p :: rest =>
    db.any (fun q => decide (power_key q = power_key p)) || batch_conflicts (p :: db) rest

/-- Upsert of one row by primary key, as db.session.merge: replace the
row with the same key if present, else insert. -/
def merge_one (db : List Power) (p : Power) : List Power :=
  if db.any (fun q => decide (power_key q = power_key p)) then
    db.map (fun q => if power_key q = power_key p then p else q)
  else db ++ [p]

/-- Upsert of a whole batch, row by row in batch order. -/
def merge_save (db : List Power) (batch : List Power) : List Power :=
  batch.foldl merge_one db

/-- Embedding of save_to_database (api_utils.py lines 211-217) composed
with the enclosing transaction: a bulk save raises IntegrityError on a
key conflict (leaving the committed rows untouched), a merge save
(overwrite) upserts and cannot conflict. -/
def save_to_database (db : List Power) (objects : List Power) (overwrite : Bool) :
    Except DbError (List Power) :=
  if overwrite then Except.ok (merge_save db objects)
  else if batch_conflicts db objects then Except.error DbError.integrityError
  else Except.ok (db ++ objects)

/-- The try/except block of create_connection_and_value_groups
(implementations.py lines 284-301): attempt the bulk save and commit; on
IntegrityError roll back unconditionally (the committed rows are passed
on unchanged), and only then check BVP_MODE: in play mode redo the same
batch as a merge save and commit, otherwise report
already_received_and_successfully_processed and discard the batch.
Forecasting jobs have no conflicting key and are appended on commit. -/
def save_phase (bvp_mode : String) (powers_db : List Power) (jobs_db : List Job)
    (ms : List Power) (jobs : List Job) : ApiResponse × List Power × List Job :=
  match save_to_database powers_db ms false with
  | Except.ok db2 => (ApiResponse.request_processed, db2, jobs_db ++ jobs)
  | Except.error _ =>
    if bvp_mode = "play" then
      match save_to_database powers_db ms true with
      | Except.ok db2 => (ApiResponse.request_processed, db2, jobs_db ++ jobs)
      | Except.error _ => (ApiResponse.request_processed, powers_db, jobs_db)
    else (ApiResponse.already_received_and_successfully_processed, powers_db, jobs_db)

/-- Embedding of create_connection_and_value_groups (implementations.py
lines 212-301): run the validation/build loops over the zipped groups,
then either return the early response with the stores untouched, or run
the save phase on the collected batch.  The committed Power rows and job
rows are threaded explicitly. -/
def create_connection_and_value_groups (env : Env) (powers_db : List Power)
    (jobs_db : List Job) (generic_asset_name_groups : List (List String))
    (value_groups : List (List ℚ)) (horizon : ℚ) (rolling : Bool) (start duration : ℚ) :
    Except PyError (ApiResponse × List Power × List Job) :=
  match process_groups env horizon rolling start duration
      (generic_asset_name_groups.zip value_groups) with
  | Except.error e => Except.error e
  | Except.ok (Sum.inl resp) => Except.ok (resp, powers_db, jobs_db)
  | Except.ok (Sum.inr msjobs) =>
    Except.ok (save_phase env.bvp_mode powers_db jobs_db msjobs.1 msjobs.2)

/-- The asset-name resolution loop of collect_connection_and_value_groups
(implementations.py lines 162-180): parse each address (invalid_domain on
failure), check authorization (unrecognized_connection_group otherwise),
look the Asset row up, and read asset.name — which raises AttributeError
when the query found no row. -/
def collect_asset_names (env : Env) :
    List String → Except PyError (Sum ApiResponse (List String))
  | [] => Except.ok (Sum.inr [])
  | c :: rest =>
    match env.validate_entity_address c with
    | none => Except.ok (Sum.inl ApiResponse.invalid_domain)
    | some asset_id =>
      if asset_id ∈ env.user_asset_ids then
        match env.assets.find? (fun a => a.id == asset_id) with
        | none => Except.error PyError.attributeError
        | some asset =>
          match collect_asset_names env rest with
          | Except.error e => Except.error e
          | Except.ok (Sum.inl resp) => Except.ok (Sum.inl resp)
          | Except.ok (Sum.inr names) => Except.ok (Sum.inr (asset.name :: names))
      else Except.ok (Sum.inl ApiResponse.unrecognized_connection_group)

/-- The response-assembly loop of collect_connection_and_value_groups
over the fetched time series (implementations.py lines 196-200): for each
(key, values) item, append the sign-reversed values as a value group and
the key as its own connection group. -/
def collect_value_groups (ts_values : List (String × List ℚ)) :
    List (List ℚ) × List String :=
  match ts_values with
  | [] => ([], [])
  | kv :: rest =>
    let r := collect_value_groups rest
    ((kv.2.map (fun x => x * (-1))) :: r.1, kv.1 :: r.2)

/-- The pure, self-inverse elementwise negation the spec calls
SignTranslator; the theorems below connect it to the two negation sites
in the source (implementations.py lines 196-199 and 270-271). -/
def sign_translate (v : List ℚ) : List ℚ :=
  v.map (fun x => -x)

/-- C8: for connection_groups=[[1]] and value_groups=[[300,300,300]],
groups_to_dict returns exactly the flat shape
(connection: 1, values: [300,300,300]) — singular connection key, scalar
connection, no groups nesting. -/
theorem groups_to_dict_single_pair_flat :
    groups_to_dict [Val.list [Val.nat 1]] [vals300]
      = GroupsDict.flat (GEntry.connection (Val.nat 1) vals300) := by
  decide

/-- C7: for connection_groups=[[1],[2]] and the distinct value groups
[[300,300,300],[400,400,400]], groups_to_dict returns the nested shape
with one entry per distinct value group in first-seen order, each
singleton connection group rendered under the singular connection key. -/
theorem groups_to_dict_distinct_groups_nested :
    groups_to_dict [Val.list [Val.nat 1], Val.list [Val.nat 2]] [vals300, vals400]
      = GroupsDict.grouped
          [GEntry.connection (Val.nat 1) vals300,
           GEntry.connection (Val.nat 2) vals400] := by
  decide

/-- C1: evaluation of groups_to_dict at the claim's input
connection_groups=[[1],[2]], value_groups=[[300,300,300],[300,300,300]].
The code produces the flat plural shape, but with the second singleton
connection group appended WHOLE by unique_ever_seen, so the connections
list is the nested [1, [2]] — not the flat [1, 2] stated by the claim and
by the function's own docstring (api_utils.py lines 102-109). -/
theorem groups_to_dict_merge_nests_second_connection :
    groups_to_dict [Val.list [Val.nat 1], Val.list [Val.nat 2]] [vals300, vals300]
      = GroupsDict.flat
          (GEntry.connections (Val.list [Val.nat 1, Val.list [Val.nat 2]]) vals300)
      ∧ groups_to_dict [Val.list [Val.nat 1], Val.list [Val.nat 2]] [vals300, vals300]
        ≠ GroupsDict.flat
            (GEntry.connections (Val.list [Val.nat 1, Val.nat 2]) vals300) := by
  exact ⟨by decide, by decide⟩

theorem collect_value_groups_eq_map_sign_translate (ts : List (String × List ℚ)) :
    (collect_value_groups ts).1 = ts.map (fun kv => sign_translate kv.2) := by
  induction ts with
  | nil => simp [collect_value_groups]
  | cons kv rest ih =>
    simp [collect_value_groups, ih, sign_translate, mul_neg_one]

theorem build_power_measurements_values (data_source_id : Nat) (asset : Asset)
    (horizon : ℚ) (rolling : Bool) (start duration : ℚ) (value_group : List ℚ) :
    (build_power_measurements data_source_id asset horizon rolling start duration
        value_group).map Power.value
      = sign_translate value_group := by
  rw [build_power_measurements, List.map_map]
  have h1 : (Power.value ∘ fun jv : Nat × ℚ =>
      Power.mk (start + (jv.1 : ℚ) * duration / (value_group.length : ℚ))
        (jv.2 * (-1))
        (if rolling then horizon
          else horizon - ((start + duration)
            - ((start + (jv.1 : ℚ) * duration / (value_group.length : ℚ))
               + duration / (value_group.length : ℚ))))
        asset.id data_source_id)
      = ((fun x => -x) ∘ Prod.snd) := by
    funext jv
    simp [mul_neg_one]
  rw [h1, ← List.map_map, List.enum_map_snd, sign_translate]

/-- C5: sign translation is a self-inverse elementwise negation — for
every value array v, translating twice returns v — and the same negation
is what the source applies at the two boundaries: the query pipeline's
value groups are the sign-translated fetched series (implementations.py
lines 196-199), and the values of the Power rows built at ingestion are
the sign-translated submitted values (implementations.py lines 270-271). -/
theorem sign_translate_self_inverse_and_at_both_boundaries :
    (∀ v : List ℚ, sign_translate (sign_translate v) = v)
    ∧ (∀ ts : List (String × List ℚ),
        (collect_value_groups ts).1 = ts.map (fun kv => sign_translate kv.2))
    ∧ (∀ (data_source_id : Nat) (asset : Asset) (horizon : ℚ) (rolling : Bool)
        (start duration : ℚ) (value_group : List ℚ),
        (build_power_measurements data_source_id asset horizon rolling start duration
            value_group).map Power.value
          = sign_translate value_group) := by
  refine ⟨?_, collect_value_groups_eq_map_sign_translate, build_power_measurements_values⟩
  intro v
  simp [sign_translate]

theorem process_connection_inr (env : Env) (H : ℚ) (r : Bool) (s d : ℚ)
    (c : String) (vg : List ℚ) (ms : List Power) (jobs : List Job)
    (h : process_connection env H r s d c vg = Except.ok (Sum.inr (ms, jobs))) :
    ∃ a, resolve_asset env c = some a
      ∧ ms = build_power_measurements env.data_source_id a H r s d vg := by
  rw [process_connection] at h
  rw [resolve_asset]
  cases hp : env.validate_entity_address c with
  | none =>
    rw [hp] at h
    simp at h
  | some asset_id =>
    rw [hp] at h
    dsimp only at h ⊢
    by_cases hm : asset_id ∈ env.user_asset_ids
    · rw [if_pos hm] at h
      rw [if_pos hm]
      cases hf : env.assets.find? (fun a => a.id == asset_id) with
      | none =>
        rw [hf] at h
        simp at h
      | some a =>
        rw [hf] at h
        dsimp only at h
        split at h
        · simp at h
        · split at h
          · simp at h
          · refine ⟨a, rfl, ?_⟩
            simp at h
            exact h.1.symm
    · rw [if_neg hm] at h
      simp at h

theorem process_connection_inl (env : Env) (H : ℚ) (r : Bool) (s d : ℚ)
    (c : String) (vg : List ℚ) (resp : ApiResponse)
    (h : process_connection env H r s d c vg = Except.ok (Sum.inl resp)) :
    resp = ApiResponse.invalid_domain
    ∨ resp = ApiResponse.unrecognized_connection_group
    ∨ (∃ i, resp = ApiResponse.power_value_too_small i)
    ∨ (∃ i, resp = ApiResponse.power_value_too_big i) := by
  rw [process_connection] at h
  cases hp : env.validate_entity_address c with
  | none =>
    rw [hp] at h
    simp at h
    simp [h]
  | some asset_id =>
    rw [hp] at h
    dsimp only at h
    by_cases hm : asset_id ∈ env.user_asset_ids
    · rw [if_pos hm] at h
      cases hf : env.assets.find? (fun a => a.id == asset_id) with
      | none =>
        rw [hf] at h
        simp at h
      | some a =>
        rw [hf] at h
        dsimp only at h
        split at h
        · simp at h
          exact Or.inr (Or.inr (Or.inl ⟨a.entity_address, h.symm⟩))
        · split at h
          · simp at h
            exact Or.inr (Or.inr (Or.inr ⟨a.entity_address, h.symm⟩))
          · simp at h
    · rw [if_neg hm] at h
      simp at h
      simp [h]

theorem process_connection_consumer_neg (env : Env) (H : ℚ) (r : Bool) (s d : ℚ)
    (c : String) (vg : List ℚ) (a : Asset)
    (hres : resolve_asset env c = some a)
    (hcons : a.is_pure_consumer = true)
    (hneg : ∃ v ∈ vg, v < 0) :
    process_connection env H r s d c vg
      = Except.ok (Sum.inl (ApiResponse.power_value_too_small a.entity_address)) := by
  rw [resolve_asset] at hres
  rw [process_connection]
  cases hp : env.validate_entity_address c with
  | none => rw [hp] at hres; simp at hres
  | some asset_id =>
    rw [hp] at hres
    dsimp only at hres ⊢
    by_cases hm : asset_id ∈ env.user_asset_ids
    · rw [if_pos hm] at hres
      rw [if_pos hm, hres]
      dsimp only
      have hany : (vg.any fun v => decide (v < 0)) = true := by
        obtain ⟨v, hv, hvneg⟩ := hneg
        exact List.any_eq_true.mpr ⟨v, hv, by simpa using hvneg⟩
      rw [hcons, hany]
      simp
    · rw [if_neg hm] at hres
      simp at hres

theorem process_connection_producer_pos (env : Env) (H : ℚ) (r : Bool) (s d : ℚ)
    (c : String) (vg : List ℚ) (a : Asset)
    (hres : resolve_asset env c = some a)
    (hprod : a.is_pure_producer = true)
    (hpos : ∃ v ∈ vg, 0 < v)
    (hnocons : (a.is_pure_consumer && vg.any fun v => decide (v < 0)) = false) :
    process_connection env H r s d c vg
      = Except.ok (Sum.inl (ApiResponse.power_value_too_big a.entity_address)) := by
  rw [resolve_asset] at hres
  rw [process_connection]
  cases hp : env.validate_entity_address c with
  | none => rw [hp] at hres; simp at hres
  | some asset_id =>
    rw [hp] at hres
    dsimp only at hres ⊢
    by_cases hm : asset_id ∈ env.user_asset_ids
    · rw [if_pos hm] at hres
      rw [if_pos hm, hres]
      dsimp only
      have hany : (vg.any fun v => decide (0 < v)) = true := by
        obtain ⟨v, hv, hvpos⟩ := hpos
        exact List.any_eq_true.mpr ⟨v, hv, by simpa using hvpos⟩
      rw [hnocons]
      simp only [Bool.false_eq_true, if_false]
      have : (vg.any fun v => decide (v > 0)) = true := hany
      rw [hprod, this]
      simp
    · rw [if_neg hm] at hres
      simp at hres

/-- A (connection group, value group) pair containing a sign-domain
violation in the sense of implementations.py lines 244-256: some
connection of the group resolves to a pure-consumer asset while the value
group holds a negative value, or to a pure-producer asset while the value
group holds a positive value. -/
def sign_violation (env : Env) (cg : List String) (vg : List ℚ) : Prop :=
  ∃ c ∈ cg, ∃ a, resolve_asset env c = some a
    ∧ ((a.is_pure_consumer = true ∧ ∃ v ∈ vg, v < 0)
       ∨ (a.is_pure_producer = true ∧ ∃ v ∈ vg, 0 < v))

theorem process_connection_violation_inl (env : Env) (H : ℚ) (r : Bool) (s d : ℚ)
    (c : String) (vg : List ℚ) (a : Asset)
    (hres : resolve_asset env c = some a)
    (hviol : (a.is_pure_consumer = true ∧ ∃ v ∈ vg, v < 0)
       ∨ (a.is_pure_producer = true ∧ ∃ v ∈ vg, 0 < v)) :
    ∃ resp, process_connection env H r s d c vg = Except.ok (Sum.inl resp) := by
  rcases hviol with ⟨hc, hneg⟩ | ⟨hp, hpos⟩
  · exact ⟨_, process_connection_consumer_neg env H r s d c vg a hres hc hneg⟩
  · by_cases hcc : (a.is_pure_consumer && vg.any fun v => decide (v < 0)) = true
    · have hcc2 : a.is_pure_consumer = true ∧ (vg.any fun v => decide (v < 0)) = true := by
        simpa using hcc
      obtain ⟨h1, h2⟩ := hcc2
      obtain ⟨v, hv, hvneg⟩ := List.any_eq_true.mp h2
      exact ⟨_, process_connection_consumer_neg env H r s d c vg a hres h1
        ⟨v, hv, by simpa using hvneg⟩⟩
    · exact ⟨_, process_connection_producer_pos env H r s d c vg a hres hp hpos
        (by simpa using hcc)⟩

theorem process_connections_violation (env : Env) (H : ℚ) (r : Bool) (s d : ℚ)
    (vg : List ℚ) (cg : List String)
    (hviol : sign_violation env cg vg) :
    ∀ x, process_connections env H r s d vg cg ≠ Except.ok (Sum.inr x) := by
  induction cg with
  | nil =>
    obtain ⟨c, hc, _⟩ := hviol
    simp at hc
  | cons c rest ih =>
    intro x hx
    simp only [process_connections] at hx
    obtain ⟨c', hc', a, hres, hv⟩ := hviol
    rcases List.mem_cons.mp hc' with rfl | hmem
    · obtain ⟨resp, hresp⟩ := process_connection_violation_inl env H r s d c' vg a hres hv
      rw [hresp] at hx
      simp at hx
    · cases hpc : process_connection env H r s d c vg with
      | error e =>
        rw [hpc] at hx
        simp at hx
      | ok v =>
        cases v with
        | inl resp =>
          rw [hpc] at hx
          simp at hx
        | inr msjobs =>
          rw [hpc] at hx
          dsimp only at hx
          cases hrec : process_connections env H r s d vg rest with
          | error e =>
            rw [hrec] at hx
            simp at hx
          | ok v2 =>
            cases v2 with
            | inl resp =>
              rw [hrec] at hx
              simp at hx
            | inr m2 => exact ih ⟨c', hmem, a, hres, hv⟩ m2 hrec

theorem process_groups_violation (env : Env) (H : ℚ) (r : Bool) (s d : ℚ)
    (pairs : List (List String × List ℚ))
    (hviol : ∃ p ∈ pairs, sign_violation env p.1 p.2) :
    ∀ x, process_groups env H r s d pairs ≠ Except.ok (Sum.inr x) := by
  induction pairs with
  | nil =>
    obtain ⟨p, hp, _⟩ := hviol
    simp at hp
  | cons q rest ih =>
    intro x hx
    simp only [process_groups] at hx
    obtain ⟨p, hp, hv⟩ := hviol
    rcases List.mem_cons.mp hp with rfl | hmem
    · cases hpc : process_connections env H r s d p.2 p.1 with
      | error e =>
        rw [hpc] at hx
        simp at hx
      | ok v =>
        cases v with
        | inl resp =>
          rw [hpc] at hx
          simp at hx
        | inr msjobs => exact process_connections_violation env H r s d p.2 p.1 hv msjobs hpc
    · cases hpc : process_connections env H r s d q.2 q.1 with
      | error e =>
        rw [hpc] at hx
        simp at hx
      | ok v =>
        cases v with
        | inl resp =>
          rw [hpc] at hx
          simp at hx
        | inr msjobs =>
          rw [hpc] at hx
          dsimp only at hx
          cases hrec : process_groups env H r s d rest with
          | error e =>
            rw [hrec] at hx
            simp at hx
          | ok v2 =>
            cases v2 with
            | inl resp =>
              rw [hrec] at hx
              simp at hx
            | inr m2 => exact ih ⟨p, hmem, hv⟩ m2 hrec

theorem process_connections_inl (env : Env) (H : ℚ) (r : Bool) (s d : ℚ)
    (vg : List ℚ) (cg : List String) (resp : ApiResponse)
    (h : process_connections env H r s d vg cg = Except.ok (Sum.inl resp)) :
    resp = ApiResponse.invalid_domain
    ∨ resp = ApiResponse.unrecognized_connection_group
    ∨ (∃ i, resp = ApiResponse.power_value_too_small i)
    ∨ (∃ i, resp = ApiResponse.power_value_too_big i) := by
  induction cg with
  | nil => simp [process_connections] at h
  | cons c rest ih =>
    simp only [process_connections] at h
    cases hpc : process_connection env H r s d c vg with
    | error e =>
      rw [hpc] at h
      simp at h
    | ok v =>
      cases v with
      | inl resp2 =>
        rw [hpc] at h
        simp at h
        exact h ▸ process_connection_inl env H r s d c vg resp2 hpc
      | inr msjobs =>
        rw [hpc] at h
        dsimp only at h
        cases hrec : process_connections env H r s d vg rest with
        | error e =>
          rw [hrec] at h
          simp at h
        | ok v2 =>
          cases v2 with
          | inl resp2 =>
            rw [hrec] at h
            simp at h
            exact ih (h ▸ hrec)
          | inr m2 =>
            rw [hrec] at h
            simp at h

theorem process_groups_inl (env : Env) (H : ℚ) (r : Bool) (s d : ℚ)
    (pairs : List (List String × List ℚ)) (resp : ApiResponse)
    (h : process_groups env H r s d pairs = Except.ok (Sum.inl resp)) :
    resp = ApiResponse.invalid_domain
    ∨ resp = ApiResponse.unrecognized_connection_group
    ∨ (∃ i, resp = ApiResponse.power_value_too_small i)
    ∨ (∃ i, resp = ApiResponse.power_value_too_big i) := by
  induction pairs with
  | nil => simp [process_groups] at h
  | cons q rest ih =>
    simp only [process_groups] at h
    cases hpc : process_connections env H r s d q.2 q.1 with
    | error e =>
      rw [hpc] at h
      simp at h
    | ok v =>
      cases v with
      | inl resp2 =>
        rw [hpc] at h
        simp at h
        exact h ▸ process_connections_inl env H r s d q.2 q.1 resp2 hpc
      | inr msjobs =>
        rw [hpc] at h
        dsimp only at h
        cases hrec : process_groups env H r s d rest with
        | error e =>
          rw [hrec] at h
          simp at h
        | ok v2 =>
          cases v2 with
          | inl resp2 =>
            rw [hrec] at h
            simp at h
            exact ih (h ▸ hrec)
          | inr m2 =>
            rw [hrec] at h
            simp at h

/-- C3 (amended): any ingestion request containing a connection that
resolves to a pure-consumer asset with a negative value (or a
pure-producer asset with a positive value) in its paired value group is
rejected — the response is never request_processed — and zero writes are
performed (the stored Power rows and jobs are returned unchanged).  The
specific response is PowerValueTooSmall when the consumer violation is
the first connection processed (and symmetrically PowerValueTooBig for a
producer violation not preceded by a firing consumer check); an earlier
failure may surface a different rejection, which is what forces the
amendment. -/
theorem sign_violation_rejects_request_with_zero_writes :
    (∀ (env : Env) (powers_db : List Power) (jobs_db : List Job)
        (gs : List (List String)) (vs : List (List ℚ)) (H : ℚ) (r : Bool) (s d : ℚ)
        (resp : ApiResponse) (powers2 : List Power) (jobs2 : List Job),
      (∃ p ∈ gs.zip vs, sign_violation env p.1 p.2) →
      create_connection_and_value_groups env powers_db jobs_db gs vs H r s d
        = Except.ok (resp, powers2, jobs2) →
      resp ≠ ApiResponse.request_processed ∧ powers2 = powers_db ∧ jobs2 = jobs_db)
    ∧ (∀ (env : Env) (powers_db : List Power) (jobs_db : List Job)
        (c : String) (cg : List String) (gs : List (List String))
        (vg : List ℚ) (vs : List (List ℚ)) (H : ℚ) (r : Bool) (s d : ℚ) (a : Asset),
      resolve_asset env c = some a → a.is_pure_consumer = true →
      (∃ v ∈ vg, v < 0) →
      create_connection_and_value_groups env powers_db jobs_db
          ((c :: cg) :: gs) (vg :: vs) H r s d
        = Except.ok (ApiResponse.power_value_too_small a.entity_address,
            powers_db, jobs_db))
    ∧ (∀ (env : Env) (powers_db : List Power) (jobs_db : List Job)
        (c : String) (cg : List String) (gs : List (List String))
        (vg : List ℚ) (vs : List (List ℚ)) (H : ℚ) (r : Bool) (s d : ℚ) (a : Asset),
      resolve_asset env c = some a → a.is_pure_producer = true →
      (∃ v ∈ vg, 0 < v) →
      (a.is_pure_consumer && vg.any fun v => decide (v < 0)) = false →
      create_connection_and_value_groups env powers_db jobs_db
          ((c :: cg) :: gs) (vg :: vs) H r s d
        = Except.ok (ApiResponse.power_value_too_big a.entity_address,
            powers_db, jobs_db)) := by
  refine ⟨?_, ?_, ?_⟩
  · intro env powers_db jobs_db gs vs H r s d resp powers2 jobs2 hviol hok
    rw [create_connection_and_value_groups] at hok
    cases hpg : process_groups env H r s d (gs.zip vs) with
    | error e =>
      rw [hpg] at hok
      simp at hok
    | ok v =>
      cases v with
      | inl r0 =>
        rw [hpg] at hok
        simp at hok
        obtain ⟨h1, h2, h3⟩ := hok
        refine ⟨?_, h2.symm, h3.symm⟩
        intro hr
        rw [← h1] at hr
        rcases process_groups_inl env H r s d (gs.zip vs) r0 hpg with
          h | h | ⟨i, h⟩ | ⟨i, h⟩ <;> rw [h] at hr <;> exact absurd hr (by simp)
      | inr x =>
        exact absurd hpg (process_groups_violation env H r s d (gs.zip vs) hviol x)
  · intro env powers_db jobs_db c cg gs vg vs H r s d a hres hcons hneg
    rw [create_connection_and_value_groups, List.zip_cons_cons]
    simp only [process_groups, process_connections]
    rw [process_connection_consumer_neg env H r s d c vg a hres hcons hneg]
  · intro env powers_db jobs_db c cg gs vg vs H r s d a hres hprod hpos hnocons
    rw [create_connection_and_value_groups, List.zip_cons_cons]
    simp only [process_groups, process_connections]
    rw [process_connection_producer_pos env H r s d c vg a hres hprod hpos hnocons]

/-- Environment for the C3 counterexample and witness: asset 1 is a pure
producer, asset 2 a pure consumer, both authorized and stored. -/
def envMixed : Env :=
  Env.mk
    (fun c => if c = "c1" then some 1 else if c = "c2" then some 2 else none)
    [1, 2]
    [Asset.mk 1 "a1" false true "ea1", Asset.mk 2 "a2" true false "ea2"]
    7 ""

/-- C3 counterexample: this request contains a connection ("c2")
resolving to a pure-consumer asset whose paired value group holds the
negative value -5, yet the pipeline's response is PowerValueTooBig (the
pure-producer violation of the earlier group "c1" is hit first), not
PowerValueTooSmall as the claim universally states.  No writes happen
either way. -/
theorem consumer_violation_not_always_power_value_too_small :
    resolve_asset envMixed "c2" = some (Asset.mk 2 "a2" true false "ea2")
    ∧ ((-5 : ℚ) < 0)
    ∧ create_connection_and_value_groups envMixed [] [] [["c1"], ["c2"]]
        [[5], [-5]] 0 true 0 1
      = Except.ok (ApiResponse.power_value_too_big "ea1", [], [])
    ∧ ApiResponse.power_value_too_big "ea1" ≠ ApiResponse.power_value_too_small "ea2" := by
  refine ⟨rfl, by norm_num, rfl, by simp⟩

/-- C3 witness: the amended theorem applied to two concrete one-group
requests, one with a pure-consumer asset receiving a negative value
(rejected PowerValueTooSmall) and one with a pure-producer asset
receiving a positive value (rejected PowerValueTooBig); in both the
stores come back unchanged. -/
theorem sign_violation_rejects_request_witness :
    create_connection_and_value_groups envMixed [] [] [["c2"]] [[-5]] 0 true 0 1
      = Except.ok (ApiResponse.power_value_too_small "ea2", [], [])
    ∧ create_connection_and_value_groups envMixed [] [] [["c1"]] [[5]] 0 true 0 1
      = Except.ok (ApiResponse.power_value_too_big "ea1", [], []) := by
  constructor
  · exact sign_violation_rejects_request_with_zero_writes.2.1 envMixed [] [] "c2" [] []
      [-5] [] 0 true 0 1 (Asset.mk 2 "a2" true false "ea2") rfl rfl
      ⟨-5, by simp, by norm_num⟩
  · exact sign_violation_rejects_request_with_zero_writes.2.2 envMixed [] [] "c1" [] []
      [5] [] 0 true 0 1 (Asset.mk 1 "a1" false true "ea1") rfl rfl
      ⟨5, by simp, by norm_num⟩ rfl

/-- C9: a connection whose value group is empty contributes zero Power
measurements, no error and no forecasting job: the per-value loop body
(where the division by the group length lives) is never entered, the
sign checks see no value, and the write interval stays empty so no job
descriptor is produced. -/
theorem empty_value_group_is_noop (env : Env) (H : ℚ) (r : Bool) (s d : ℚ)
    (c : String) (asset_id : Nat) (asset : Asset)
    (hparse : env.validate_entity_address c = some asset_id)
    (hauth : asset_id ∈ env.user_asset_ids)
    (hfind : env.assets.find? (fun a => a.id == asset_id) = some asset) :
    process_connection env H r s d c [] = Except.ok (Sum.inr ([], []))
    ∧ build_power_measurements env.data_source_id asset H r s d [] = []
    ∧ loop_end s d [] = s := by
  refine ⟨?_, rfl, rfl⟩
  rw [process_connection, hparse]
  dsimp only
  rw [if_pos hauth, hfind]
  dsimp only
  simp [build_power_measurements, loop_end]

/-- C9 witness: a concrete connection with an empty value group is a
no-op contribution. -/
theorem empty_value_group_is_noop_witness :
    process_connection envMixed 2 false 0 1 "c2" [] = Except.ok (Sum.inr ([], [])) :=
  (empty_value_group_is_noop envMixed 2 false 0 1 "c2" 2
    (Asset.mk 2 "a2" true false "ea2") rfl (by simp [envMixed]) rfl).1

/-- C6 (amended): when an address parses to an asset id inside the
caller's authorized set but storage has no matching Asset row, both
pipelines dereference the missing row (asset.is_pure_consumer on the
ingestion path, asset.name on the query path) and crash with an
unhandled AttributeError; they do not return
UnrecognizedConnectionGroup, which is reserved for an id outside the
authorized set. -/
theorem authorized_but_missing_asset_crashes (env : Env) (H : ℚ) (r : Bool)
    (s d : ℚ) (c : String) (vg : List ℚ) (rest : List String)
    (powers_db : List Power) (jobs_db : List Job) (cg : List String)
    (gs : List (List String)) (vs : List (List ℚ)) (asset_id : Nat)
    (hparse : env.validate_entity_address c = some asset_id)
    (hauth : asset_id ∈ env.user_asset_ids)
    (hfind : env.assets.find? (fun a => a.id == asset_id) = none) :
    process_connection env H r s d c vg = Except.error PyError.attributeError
    ∧ collect_asset_names env (c :: rest) = Except.error PyError.attributeError
    ∧ create_connection_and_value_groups env powers_db jobs_db
        ((c :: cg) :: gs) (vg :: vs) H r s d = Except.error PyError.attributeError := by
  have hpc : process_connection env H r s d c vg = Except.error PyError.attributeError := by
    rw [process_connection, hparse]
    dsimp only
    rw [if_pos hauth, hfind]
  refine ⟨hpc, ?_, ?_⟩
  · simp only [collect_asset_names]
    rw [hparse]
    dsimp only
    rw [if_pos hauth, hfind]
  · rw [create_connection_and_value_groups, List.zip_cons_cons]
    simp only [process_groups, process_connections]
    rw [hpc]

/-- Environment for the C6 counterexample and witness: asset id 1 is in
the caller's authorized set, but the asset store holds no row for it. -/
def envMissingRow : Env :=
  Env.mk (fun c => if c = "c1" then some 1 else none) [1] [] 7 ""

/-- C6 counterexample: a request whose address parses to the authorized
asset id 1 while storage has no matching row makes both pipelines crash
with AttributeError — neither surfaces UnrecognizedConnectionGroup as the
claim states. -/
theorem missing_asset_crashes_not_unrecognized :
    envMissingRow.validate_entity_address "c1" = some 1
    ∧ 1 ∈ envMissingRow.user_asset_ids
    ∧ create_connection_and_value_groups envMissingRow [] [] [["c1"]] [[5]] 2 false 0 1
      = Except.error PyError.attributeError
    ∧ collect_asset_names envMissingRow ["c1"] = Except.error PyError.attributeError := by
  exact ⟨rfl, by simp [envMissingRow], rfl, rfl⟩

/-- C6 witness: the amended theorem applied to the concrete environment
with an authorized id and an empty asset store. -/
theorem authorized_but_missing_asset_crashes_witness :
    process_connection envMissingRow 2 false 0 1 "c1" [5]
      = Except.error PyError.attributeError
    ∧ collect_asset_names envMissingRow ["c1"] = Except.error PyError.attributeError := by
  have h := authorized_but_missing_asset_crashes envMissingRow 2 false 0 1 "c1" [5] []
    [] [] [] [] [] 1 rfl (by simp [envMissingRow]) rfl
  exact ⟨h.1, h.2.1⟩

theorem build_power_measurements_length (ds : Nat) (a : Asset) (H : ℚ) (r : Bool)
    (s d : ℚ) (vg : List ℚ) :
    (build_power_measurements ds a H r s d vg).length = vg.length := by
  simp [build_power_measurements]

theorem build_power_measurements_getD (ds : Nat) (a : Asset) (H : ℚ) (r : Bool)
    (s d : ℚ) (vg : List ℚ) (j : Nat) (dp : Power) (hj : j < vg.length) :
    (build_power_measurements ds a H r s d vg).getD j dp
      = Power.mk (s + (j : ℚ) * d / (vg.length : ℚ))
          (vg.getD j 0 * (-1))
          (if r then H
            else H - ((s + d)
              - ((s + (j : ℚ) * d / (vg.length : ℚ)) + d / (vg.length : ℚ))))
          a.id ds := by
  have hlen : j < (build_power_measurements ds a H r s d vg).length := by
    simpa [build_power_measurements_length] using hj
  rw [List.getD_eq_getElem _ _ hlen, List.getD_eq_getElem _ _ hj]
  simp [build_power_measurements, List.getElem_map, List.getElem_enum]

/-- C4 (amended): for every window, non-empty value group of length N
and baseline horizon, the per-value horizon at index j equals
horizon - ((start + duration) - (dt_j + duration/N)) with
dt_j = start + j*duration/N when rolling is false; the last sub-interval
(j = N-1) gets the baseline horizon exactly; earlier sub-intervals get
strictly SMALLER horizons when the duration is positive (the claim said
strictly larger, which the counterexample refutes); and when rolling is
true every index gets the baseline horizon. -/
theorem per_value_horizon (ds : Nat) (a : Asset) (H : ℚ) (s d : ℚ)
    (vg : List ℚ) (j : Nat) (dp : Power) (hj : j < vg.length) :
    (((build_power_measurements ds a H false s d vg).getD j dp).horizon
        = H - ((s + d) - ((s + (j : ℚ) * d / (vg.length : ℚ)) + d / (vg.length : ℚ))))
    ∧ (j = vg.length - 1 →
        ((build_power_measurements ds a H false s d vg).getD j dp).horizon = H)
    ∧ (∀ k, k < vg.length → j < k → 0 < d →
        ((build_power_measurements ds a H false s d vg).getD j dp).horizon
          < ((build_power_measurements ds a H false s d vg).getD k dp).horizon)
    ∧ ((build_power_measurements ds a H true s d vg).getD j dp).horizon = H := by
  have hform : ∀ i, i < vg.length →
      ((build_power_measurements ds a H false s d vg).getD i dp).horizon
        = H - ((s + d) - ((s + (i : ℚ) * d / (vg.length : ℚ)) + d / (vg.length : ℚ))) := by
    intro i hi
    rw [build_power_measurements_getD ds a H false s d vg i dp hi]
    simp
  refine ⟨hform j hj, ?_, ?_, ?_⟩
  · intro hlast
    rw [hform j hj, hlast]
    have h1 : 1 ≤ vg.length := by omega
    have hcast : ((vg.length - 1 : Nat) : ℚ) = (vg.length : ℚ) - 1 := by
      rw [Nat.cast_sub h1, Nat.cast_one]
    rw [hcast]
    have hN : (vg.length : ℚ) ≠ 0 := by
      have : 0 < vg.length := by omega
      exact_mod_cast this.ne'
    field_simp
    ring
  · intro k hk hjk hd
    rw [hform j hj, hform k hk]
    have hN : (0 : ℚ) < (vg.length : ℚ) := by
      have : 0 < vg.length := by omega
      exact_mod_cast this
    have hjk2 : (j : ℚ) < (k : ℚ) := by exact_mod_cast hjk
    have key : (j : ℚ) * d / (vg.length : ℚ) < (k : ℚ) * d / (vg.length : ℚ) := by
      rw [div_lt_div_iff₀ hN hN]
      nlinarith [mul_lt_mul_of_pos_right (mul_lt_mul_of_pos_right hjk2 hd) hN]
    linarith
  · rw [build_power_measurements_getD ds a H true s d vg j dp hj]
    simp

/-- C4 counterexample: with start 0, positive duration 1, baseline
horizon 2 and two values, the earlier sub-interval (j=0) gets horizon
3/2, strictly SMALLER than the later sub-interval's horizon 2 — earlier
sub-intervals do not get strictly larger horizons as the claim states. -/
theorem earlier_subinterval_horizon_not_larger :
    (0 : ℚ) < 1
    ∧ ((build_power_measurements 7 (Asset.mk 1 "a1" false false "ea1") 2 false 0 1
        [10, 20]).getD 0 (Power.mk 0 0 0 0 0)).horizon = 3 / 2
    ∧ ((build_power_measurements 7 (Asset.mk 1 "a1" false false "ea1") 2 false 0 1
        [10, 20]).getD 1 (Power.mk 0 0 0 0 0)).horizon = 2
    ∧ ¬ (((build_power_measurements 7 (Asset.mk 1 "a1" false false "ea1") 2 false 0 1
        [10, 20]).getD 0 (Power.mk 0 0 0 0 0)).horizon
        > ((build_power_measurements 7 (Asset.mk 1 "a1" false false "ea1") 2 false 0 1
        [10, 20]).getD 1 (Power.mk 0 0 0 0 0)).horizon) := by
  have h0 : ((build_power_measurements 7 (Asset.mk 1 "a1" false false "ea1") 2 false 0 1
      [10, 20]).getD 0 (Power.mk 0 0 0 0 0)).horizon = 3 / 2 := by
    rw [build_power_measurements_getD 7 (Asset.mk 1 "a1" false false "ea1") 2 false 0 1
      [10, 20] 0 (Power.mk 0 0 0 0 0) (by norm_num)]
    norm_num
  have h1 : ((build_power_measurements 7 (Asset.mk 1 "a1" false false "ea1") 2 false 0 1
      [10, 20]).getD 1 (Power.mk 0 0 0 0 0)).horizon = 2 := by
    rw [build_power_measurements_getD 7 (Asset.mk 1 "a1" false false "ea1") 2 false 0 1
      [10, 20] 1 (Power.mk 0 0 0 0 0) (by norm_num)]
    norm_num
  refine ⟨by norm_num, h0, h1, ?_⟩
  rw [h0, h1]
  norm_num

/-- C4 witness: the amended theorem applied to the concrete window
(start 0, duration 1, horizon 2) with two values: the last sub-interval
gets exactly the baseline horizon, the earlier one a strictly smaller
horizon, and under rolling every index gets the baseline horizon. -/
theorem per_value_horizon_witness :
    ((build_power_measurements 7 (Asset.mk 1 "a1" false false "ea1") 2 false 0 1
        [10, 20]).getD 1 (Power.mk 0 0 0 0 0)).horizon = 2
    ∧ ((build_power_measurements 7 (Asset.mk 1 "a1" false false "ea1") 2 false 0 1
        [10, 20]).getD 0 (Power.mk 0 0 0 0 0)).horizon
      < ((build_power_measurements 7 (Asset.mk 1 "a1" false false "ea1") 2 false 0 1
        [10, 20]).getD 1 (Power.mk 0 0 0 0 0)).horizon
    ∧ ((build_power_measurements 7 (Asset.mk 1 "a1" false false "ea1") 2 true 0 1
        [10, 20]).getD 0 (Power.mk 0 0 0 0 0)).horizon = 2 := by
  refine ⟨?_, ?_, ?_⟩
  · exact (per_value_horizon 7 (Asset.mk 1 "a1" false false "ea1") 2 0 1 [10, 20] 1
      (Power.mk 0 0 0 0 0) (by norm_num)).2.1 (by norm_num)
  · exact (per_value_horizon 7 (Asset.mk 1 "a1" false false "ea1") 2 0 1 [10, 20] 0
      (Power.mk 0 0 0 0 0) (by norm_num)).2.2.1 1 (by norm_num) (by norm_num) (by norm_num)
  · exact (per_value_horizon 7 (Asset.mk 1 "a1" false false "ea1") 2 0 1 [10, 20] 0
      (Power.mk 0 0 0 0 0) (by norm_num)).2.2.2

theorem merge_save_cons (db : List Power) (p : Power) (rest : List Power) :
    merge_save db (p :: rest) = merge_save (merge_one db p) rest := rfl

theorem mem_merge_one_self (db : List Power) (p : Power) : p ∈ merge_one db p := by
  rw [merge_one]
  split
  · rename_i h
    obtain ⟨q, hq, hkey⟩ := List.any_eq_true.mp h
    refine List.mem_map.mpr ⟨q, hq, ?_⟩
    simp at hkey
    simp [hkey]
  · simp

theorem mem_merge_one_of_key_ne (db : List Power) (p q : Power)
    (hq : q ∈ db) (hne : power_key q ≠ power_key p) : q ∈ merge_one db p := by
  rw [merge_one]
  split
  · exact List.mem_map.mpr ⟨q, hq, by simp [hne]⟩
  · exact List.mem_append_left _ hq

theorem mem_merge_save_of_key_not_mem (db : List Power) (batch : List Power) (q : Power)
    (hq : q ∈ db) (hk : power_key q ∉ batch.map power_key) : q ∈ merge_save db batch := by
  induction batch generalizing db with
  | nil => simpa [merge_save] using hq
  | cons p rest ih =>
    rw [merge_save_cons]
    simp only [List.map_cons, List.mem_cons, not_or] at hk
    exact ih (merge_one db p) (mem_merge_one_of_key_ne db p q hq hk.1) hk.2

theorem mem_merge_save_of_mem_batch (db : List Power) (batch : List Power) (q : Power)
    (hnd : (batch.map power_key).Nodup) (hq : q ∈ batch) : q ∈ merge_save db batch := by
  induction batch generalizing db with
  | nil => simp at hq
  | cons p rest ih =>
    rw [merge_save_cons]
    simp only [List.map_cons, List.nodup_cons] at hnd
    rcases List.mem_cons.mp hq with rfl | hmem
    · exact mem_merge_save_of_key_not_mem (merge_one db q) rest q
        (mem_merge_one_self db q) hnd.1
    · exact ih (merge_one db p) hnd.2 hmem

/-- C2: when the bulk insert of an ingestion batch hits a
uniqueness-constraint violation, the rollback is unconditional and comes
before the mode check: outside "play" mode the request reports
already_received_and_successfully_processed and the stored rows (and
jobs) are exactly the pre-request ones; in "play" mode the same batch is
re-written as a merge/upsert into the PRE-REQUEST store (i.e. after
rollback) and committed, so every batch row (under distinct keys) ends up
stored.  The last conjunct ties this to the full pipeline: whenever the
validation loops produce a batch, create_connection_and_value_groups
returns exactly this save phase's outcome. -/
theorem conflict_rollback_before_mode_check (mode : String) (powers_db : List Power)
    (jobs_db : List Job) (ms : List Power) (jobs : List Job)
    (hconf : batch_conflicts powers_db ms = true) :
    (mode ≠ "play" →
      save_phase mode powers_db jobs_db ms jobs
        = (ApiResponse.already_received_and_successfully_processed, powers_db, jobs_db))
    ∧ (mode = "play" →
      save_phase mode powers_db jobs_db ms jobs
        = (ApiResponse.request_processed, merge_save powers_db ms, jobs_db ++ jobs)
      ∧ ((ms.map power_key).Nodup → ∀ p ∈ ms, p ∈ merge_save powers_db ms))
    ∧ (∀ (env : Env) (gs : List (List String)) (vs : List (List ℚ))
        (H : ℚ) (r : Bool) (s d : ℚ),
      process_groups env H r s d (gs.zip vs) = Except.ok (Sum.inr (ms, jobs)) →
      create_connection_and_value_groups env powers_db jobs_db gs vs H r s d
        = Except.ok (save_phase env.bvp_mode powers_db jobs_db ms jobs)) := by
  have hbulk : save_to_database powers_db ms false = Except.error DbError.integrityError := by
    rw [save_to_database]
    simp [hconf]
  refine ⟨?_, ?_, ?_⟩
  · intro hmode
    rw [save_phase, hbulk]
    dsimp only
    rw [if_neg hmode]
  · intro hmode
    constructor
    · rw [save_phase, hbulk]
      dsimp only
      rw [if_pos hmode, save_to_database]
      simp
    · intro hnd p hp
      exact mem_merge_save_of_mem_batch powers_db ms p hnd hp
  · intro env gs vs H r s d hrun
    rw [create_connection_and_value_groups, hrun]

/-- C2 witness: a one-row batch resubmitted over a store that already
holds its (datetime, asset_id) key.  In strict mode the request is
rejected as already received and the store keeps its old row; in "play"
mode the request succeeds and the store holds the new row (the merge of
the batch over the rolled-back store). -/
theorem conflict_rollback_before_mode_check_witness :
    save_phase "" [Power.mk 0 99 0 1 7] [] [Power.mk 0 (-5) 0 1 7] []
      = (ApiResponse.already_received_and_successfully_processed,
          [Power.mk 0 99 0 1 7], [])
    ∧ save_phase "play" [Power.mk 0 99 0 1 7] [] [Power.mk 0 (-5) 0 1 7] []
      = (ApiResponse.request_processed,
          merge_save [Power.mk 0 99 0 1 7] [Power.mk 0 (-5) 0 1 7], [] ++ [])
    ∧ Power.mk 0 (-5) 0 1 7
        ∈ merge_save [Power.mk 0 99 0 1 7] [Power.mk 0 (-5) 0 1 7] := by
  refine ⟨?_, ?_, ?_⟩
  · exact (conflict_rollback_before_mode_check "" [Power.mk 0 99 0 1 7] []
      [Power.mk 0 (-5) 0 1 7] [] (by decide)).1 (by decide)
  · exact ((conflict_rollback_before_mode_check "play" [Power.mk 0 99 0 1 7] []
      [Power.mk 0 (-5) 0 1 7] [] (by decide)).2.1 rfl).1
  · exact ((conflict_rollback_before_mode_check "play" [Power.mk 0 99 0 1 7] []
      [Power.mk 0 (-5) 0 1 7] [] (by decide)).2.1 rfl).2 (by decide)
      (Power.mk 0 (-5) 0 1 7) (by decide)

/-- The Power rows contributed by one connection when its address
resolves (empty when it does not; on the success path of the ingestion
loop every resolution has succeeded). -/
def resolved_measurements (env : Env) (H : ℚ) (r : Bool) (s d : ℚ)
    (vg : List ℚ) (c : String) : List Power :=
  match resolve_asset env c with
  | some a => build_power_measurements env.data_source_id a H r s d vg
  | none => []

theorem process_connections_inr (env : Env) (H : ℚ) (r : Bool) (s d : ℚ)
    (vg : List ℚ) (cg : List String) (ms : List Power) (jobs : List Job)
    (h : process_connections env H r s d vg cg = Except.ok (Sum.inr (ms, jobs))) :
    (∀ c ∈ cg, (resolve_asset env c).isSome)
    ∧ ms = cg.flatMap (resolved_measurements env H r s d vg)
    ∧ ms.length = cg.length * vg.length := by
  induction cg generalizing ms jobs with
  | nil =>
    rw [process_connections] at h
    simp at h
    simp [h.1]
  | cons c rest ih =>
    simp only [process_connections] at h
    cases hpc : process_connection env H r s d c vg with
    | error e =>
      rw [hpc] at h
      simp at h
    | ok v =>
      cases v with
      | inl resp =>
        rw [hpc] at h
        simp at h
      | inr msjobs =>
        rw [hpc] at h
        dsimp only at h
        cases hrec : process_connections env H r s d vg rest with
        | error e =>
          rw [hrec] at h
          simp at h
        | ok v2 =>
          cases v2 with
          | inl resp =>
            rw [hrec] at h
            simp at h
          | inr m2 =>
            rw [hrec] at h
            simp at h
            obtain ⟨a, hres, hbuild⟩ := process_connection_inr env H r s d c vg
              msjobs.1 msjobs.2 (by rw [hpc])
            obtain ⟨ih1, ih2, ih3⟩ := ih m2.1 m2.2 (by rw [hrec])
            refine ⟨?_, ?_, ?_⟩
            · intro c2 hc2
              rcases List.mem_cons.mp hc2 with rfl | hmem
              · simp [hres]
              · exact ih1 c2 hmem
            · rw [← h.1, List.flatMap_cons, ← ih2]
              congr 1
              rw [resolved_measurements, hres]
              dsimp only
              exact hbuild
            · rw [← h.1]
              simp only [List.length_append]
              rw [ih3, hbuild, build_power_measurements_length, List.length_cons]
              ring

theorem process_groups_inr (env : Env) (H : ℚ) (r : Bool) (s d : ℚ)
    (pairs : List (List String × List ℚ)) (ms : List Power) (jobs : List Job)
    (h : process_groups env H r s d pairs = Except.ok (Sum.inr (ms, jobs))) :
    (∀ p ∈ pairs, ∀ c ∈ p.1, (resolve_asset env c).isSome)
    ∧ ms = pairs.flatMap (fun p => p.1.flatMap (resolved_measurements env H r s d p.2))
    ∧ ms.length = (pairs.map (fun p => p.1.length * p.2.length)).sum := by
  induction pairs generalizing ms jobs with
  | nil =>
    rw [process_groups] at h
    simp at h
    simp [h.1]
  | cons q rest ih =>
    simp only [process_groups] at h
    cases hpc : process_connections env H r s d q.2 q.1 with
    | error e =>
      rw [hpc] at h
      simp at h
    | ok v =>
      cases v with
      | inl resp =>
        rw [hpc] at h
        simp at h
      | inr msjobs =>
        rw [hpc] at h
        dsimp only at h
        cases hrec : process_groups env H r s d rest with
        | error e =>
          rw [hrec] at h
          simp at h
        | ok v2 =>
          cases v2 with
          | inl resp =>
            rw [hrec] at h
            simp at h
          | inr m2 =>
            rw [hrec] at h
            simp at h
            obtain ⟨hq1, hq2, hq3⟩ := process_connections_inr env H r s d q.2 q.1
              msjobs.1 msjobs.2 (by rw [hpc])
            obtain ⟨ih1, ih2, ih3⟩ := ih m2.1 m2.2 (by rw [hrec])
            refine ⟨?_, ?_, ?_⟩
            · intro p hp
              rcases List.mem_cons.mp hp with rfl | hmem
              · exact hq1
              · exact ih1 p hmem
            · rw [← h.1, List.flatMap_cons, ← ih2, ← hq2]
            · rw [← h.1]
              simp only [List.length_append, List.map_cons, List.sum_cons]
              rw [hq3, ih3]

/-- C10: whenever the ingestion loops complete on the zipped
(connection group, value group) pairs, the batch is exactly the
concatenation, over pairs in order and over each pair's connections in
order, of the per-connection Power rows for the ENTIRE paired value
group; its total size is the sum over pairs of |connection group| times
|value group|; every involved connection resolved; and the row built for
value index j carries datetime start + j*duration/N, the negated value,
the per-value horizon, the asset id and the data source id. -/
theorem ingestion_batch_structure (env : Env) (H : ℚ) (r : Bool) (s d : ℚ)
    (gs : List (List String)) (vs : List (List ℚ)) (ms : List Power) (jobs : List Job)
    (hrun : process_groups env H r s d (gs.zip vs) = Except.ok (Sum.inr (ms, jobs))) :
    ms = (gs.zip vs).flatMap
        (fun p => p.1.flatMap (resolved_measurements env H r s d p.2))
    ∧ ms.length = ((gs.zip vs).map (fun p => p.1.length * p.2.length)).sum
    ∧ (∀ p ∈ gs.zip vs, ∀ c ∈ p.1, (resolve_asset env c).isSome)
    ∧ (∀ (a : Asset) (vg : List ℚ) (j : Nat) (dp : Power), j < vg.length →
        (build_power_measurements env.data_source_id a H r s d vg).getD j dp
          = Power.mk (s + (j : ℚ) * d / (vg.length : ℚ))
              (vg.getD j 0 * (-1))
              (if r then H
                else H - ((s + d)
                  - ((s + (j : ℚ) * d / (vg.length : ℚ)) + d / (vg.length : ℚ))))
              a.id env.data_source_id) := by
  obtain ⟨h1, h2, h3⟩ := process_groups_inr env H r s d (gs.zip vs) ms jobs hrun
  exact ⟨h2, h3, h1, fun a vg j dp hj =>
    build_power_measurements_getD env.data_source_id a H r s d vg j dp hj⟩

/-- Environment for the C10 witness: two plain assets (neither pure
consumer nor pure producer), both authorized and stored. -/
def envPlain : Env :=
  Env.mk (fun c => if c = "c1" then some 1 else if c = "c2" then some 2 else none)
    [1, 2] [Asset.mk 1 "a1" false false "ea1", Asset.mk 2 "a2" false false "ea2"] 7 ""

/-- C10 witness: on a concrete request whose first pair has a
two-connection group with two values and whose second has a
one-connection group with one value, the completed batch holds exactly
2*2 + 1*1 = 5 measurements. -/
theorem ingestion_batch_structure_witness :
    [Power.mk 0 1 0 1 7, Power.mk 1 2 0 1 7, Power.mk 0 1 0 2 7, Power.mk 1 2 0 2 7,
      Power.mk 0 3 0 1 7].length
      = (([["c1", "c2"], ["c1"]].zip [[-1, -2], [-3]]).map
          (fun p => p.1.length * p.2.length)).sum := by
  have hrun : process_groups envPlain 0 true 0 2
      ([["c1", "c2"], ["c1"]].zip [[-1, -2], [-3]])
      = Except.ok (Sum.inr
          ([Power.mk 0 1 0 1 7, Power.mk 1 2 0 1 7, Power.mk 0 1 0 2 7,
            Power.mk 1 2 0 2 7, Power.mk 0 3 0 1 7],
           [Job.mk "Power" 1 0 1, Job.mk "Power" 2 0 1])) := by
    norm_num [process_groups, process_connections, process_connection, envPlain,
      build_power_measurements, loop_end, make_forecasting_jobs, List.enum,
      List.enumFrom]
    decide
  exact (ingestion_batch_structure envPlain 0 true 0 2 [["c1", "c2"], ["c1"]]
    [[-1, -2], [-3]] _ _ hrun).2.1
